import Mathlib

/-!
Shallow embedding of the ai-news ingestion/summarization pipeline
(RSS/Atom/RDF feed parsing, YouTube transcript ingestion, rate-limited
Twitter API client, storage with deduplication and retention, model-pair
rotation, readability metrics, cron fetch-and-process cycle) together with
theorems settling the specification claims.

Conventions: TypeScript strings become Lean String (or List Char for the
scanner level); numbers become Nat, Int or Rat as appropriate; undefined
or optional values become Option; a thrown exception becomes the error
branch of Except; impure inputs (HTTP responses, transcript fetches, the
current time, fresh identifiers) become explicit parameters.
-/

namespace AiNews

/-! ## Data model (src/lib/types.ts) -/

/-- SourceType from types.ts: youtube, blog or twitter. -/
inductive SourceType where
  | youtube
  | blog
  | twitter
deriving DecidableEq, Repr, Inhabited

/-- ContentCategory enum of 7 values from types.ts. -/
inductive ContentCategory where
  | research
  | productLaunch
  | tutorial
  | opinion
  | news
  | analysis
  | other
deriving DecidableEq, Repr, Inhabited

/-- RawContent from types.ts. Optional fields become Option. -/
structure RawContent where
  id : String
  sourceId : String
  title : String
  url : String
  publishedAt : String
  content : String
  thumbnail : Option String
  author : Option String
deriving DecidableEq, Repr, Inhabited

/-- SummaryMetrics from types.ts. readabilityScore is the clamped rounded
Flesch value, an integer. -/
structure SummaryMetrics where
  wordCount : Nat
  sentenceCount : Nat
  readabilityScore : Int
  highlightCount : Nat
  processingTimeMs : Nat
deriving DecidableEq, Repr, Inhabited

/-- ManualRating from types.ts. -/
structure ManualRating where
  score : Rat
  ratedAt : String
deriving DecidableEq, Repr, Inhabited

/-- ModelSummary from types.ts; rating is the only mutable field. -/
structure ModelSummary where
  id : String
  modelId : String
  modelName : String
  summary : String
  highlights : List String
  category : ContentCategory
  metrics : SummaryMetrics
  rating : Option ManualRating
deriving DecidableEq, Repr, Inhabited

/-- ProcessedContent from types.ts. -/
structure ProcessedContent where
  id : String
  rawContentId : String
  sourceId : String
  sourceName : String
  sourceType : SourceType
  title : String
  url : String
  publishedAt : String
  thumbnail : Option String
  author : Option String
  processedAt : String
  summaries : List ModelSummary
deriving DecidableEq, Repr, Inhabited

/-- ModelComparison from types.ts. recordComparison always assigns winner,
so it is embedded as a plain String here. -/
structure ModelComparison where
  id : String
  contentId : String
  modelA : String
  modelB : String
  winner : String
  comparedAt : String
deriving DecidableEq, Repr, Inhabited

/-- StorageData from types.ts: the persisted aggregate. -/
structure StorageData where
  contents : List ProcessedContent
  comparisons : List ModelComparison
  lastFetchedAt : String
  lastEmailSentAt : Option String
deriving DecidableEq, Repr, Inhabited

/-! ## Storage operations (src/unnamed/part_000, the Redis storage module)

The Redis read-modify-write pair is embedded as a pure state transformer:
readStorageData supplies the pre-state, writeStorageData is the returned
post-state. Date.now based identifiers and new Date().toISOString()
timestamps become explicit parameters. -/

/-- The privileged demo article id hard-coded in addContents. -/
def testSentinelId : String := "test-arxiv-2512-04864"

/-- addContents from part_000 lines 110-138. existingIds is captured from
the pre-state before filtering; inside the filter callback the stored list
is re-filtered to drop old copies of the test article whenever the incoming
batch contains the sentinel id; surviving new items are prepended and the
list truncated to 100. -/
def addContents (data : StorageData) (newContents : List ProcessedContent)
    (now : String) : StorageData :=
  let existingIds := data.contents.map (fun c => c.rawContentId)
  let base :=
    if newContents.any (fun c => c.rawContentId == testSentinelId) then
      data.contents.filter (fun e => !(e.rawContentId == testSentinelId))
    else
      data.contents
  let uniqueNew := newContents.filter (fun c =>
    c.rawContentId == testSentinelId || !(existingIds.contains c.rawContentId))
  { data with
    contents := (uniqueNew ++ base).take 100
    lastFetchedAt := now }

/-- Replace the first element satisfying p by its image under f, as the
mutation of the object found by Array.prototype.find does. -/
def updateFirst (p : α → Bool) (f : α → α) : List α → List α
  | [] => []
  | x :: t => if p x then f x :: t else x :: updateFirst p f t

/-- updateRating from part_000 lines 151-170. The early returns on a
missing content or summary perform no write, embedded as none; some d
means writeStorageData d was called. -/
def updateRating (data : StorageData) (contentId summaryId : String)
    (score : Rat) (now : String) : Option StorageData :=
  match data.contents.find? (fun c => c.id == contentId) with
  | none => none
  | some content =>
    match content.summaries.find? (fun s => s.id == summaryId) with
    | none => none
    | some _ =>
      some { data with
        contents :=
          updateFirst (fun c => c.id == contentId)
            (fun c =>
              { c with
                summaries :=
                  updateFirst (fun s => s.id == summaryId)
                    (fun s => { s with rating := some { score := score, ratedAt := now } })
                    c.summaries })
            data.contents }

/-- recordComparison from part_000 lines 175-196: push the new record and
keep the last 500 (Array.prototype.slice with argument -500). The
comparison-id built from Date.now and the comparedAt timestamp are the
newId and now parameters. -/
def recordComparison (data : StorageData) (contentId modelA modelB winner : String)
    (newId now : String) : StorageData :=
  let comparisons := data.comparisons ++
    [{ id := newId, contentId := contentId, modelA := modelA, modelB := modelB,
       winner := winner, comparedAt := now }]
  { data with comparisons := comparisons.drop (comparisons.length - 500) }

/-- A storage value with nothing stored yet, as getDefaultData builds. -/
def emptyStorage : StorageData :=
  { contents := [], comparisons := [], lastFetchedAt := "t0", lastEmailSentAt := none }

/-! ## Model pair rotation (src/unnamed/part_002, the models module)

The module-level mutable pointer lastModelPairIndex is threaded as an
explicit Int state, initialised to -1. The configured pool is a parameter
so that properties can be stated for every pool. -/

/-- ModelConfig from the models module. -/
structure ModelConfig where
  id : String
  name : String
  provider : String
deriving DecidableEq, Repr, Inhabited

/-- MODELS_PER_CONTENT from config.ts. -/
def MODELS_PER_CONTENT : Nat := 2

/-- getModelPair from part_002 lines 16-30. Fails for a pool smaller
than 2; otherwise advances the rotation index modulo Math.floor of
pool size over MODELS_PER_CONTENT and reads two consecutive slots. The
returned Int is the updated lastModelPairIndex. Array indexing out of
range cannot occur on the reachable states, so getD is used. -/
def getModelPair (pool : List ModelConfig) (lastModelPairIndex : Int) :
    Except String ((ModelConfig × ModelConfig) × Int) :=
  if pool.length < 2 then
    Except.error "Need at least 2 models in the pool for A/B comparison"
  else
    let totalPairs : Int := (pool.length : Int) / (MODELS_PER_CONTENT : Int)
    let idx := (lastModelPairIndex + 1) % totalPairs
    let modelA := pool.getD ((idx * 2) % (pool.length : Int)).toNat default
    let modelB := pool.getD ((idx * 2 + 1) % (pool.length : Int)).toNat default
    Except.ok ((modelA, modelB), idx)

/-- The rotation pointer after k selections, starting from the initial
module state -1. A selection against an undersized pool throws and leaves
the pointer unchanged. -/
def rotationState (pool : List ModelConfig) : Nat → Int
  | 0 => -1
  | k + 1 =>
    match getModelPair pool (rotationState pool k) with
    | Except.ok (_, idx) => idx
    | Except.error _ => rotationState pool k

/-- The pair produced by the k-th call to getModelPair (0-based). -/
def selectionAt (pool : List ModelConfig) (k : Nat) :
    Except String (ModelConfig × ModelConfig) :=
  (getModelPair pool (rotationState pool k)).map (fun r => r.1)

/-- All models handed out by the selections with index below k. -/
def selectedBefore (pool : List ModelConfig) (k : Nat) : List ModelConfig :=
  (List.range k).flatMap (fun i =>
    match selectionAt pool i with
    | Except.ok (a, b) => [a, b]
    | Except.error _ => [])

/-! ## Rate-limited Twitter client (src/unnamed/part_007)

twitterApiRequest is embedded over an explicit response oracle: the n-th
attempt observes resp n. Sleeping is replaced by recording the computed
wait; the returned list is every backoff wait computed at a 429. -/

/-- One synthetic HTTP outcome for an attempt. retryAfterSecs models the
optional Retry-After header of a 429 in seconds. -/
inductive ApiResponse where
  | status429 (retryAfterSecs : Option Nat)
  | httpError (status : Nat) (body : String)
  | success (body : String)
deriving DecidableEq, Repr, Inhabited

/-- The backoff computed at part_007 line 133 when a 429 carries no
Retry-After header: min of 15000 times 2 to the attempt and 60000 ms. -/
def backoffWaitMs (attempt : Nat) : Nat :=
  min (15000 * 2 ^ attempt) 60000

/-- The rate-limit error raised after exhausting retries on 429. -/
def rateLimitMessage : String :=
  "Twitter API rate limit exceeded. Free tier allows ~1 request per 15 seconds for user timelines. Please wait and try again."

/-- Substring test used by the catch-block retry heuristic. -/
def strContains (pat s : String) : Bool :=
  let rec go (p : List Char) : List Char → Bool
    | [] => p.isEmpty
    | c :: t => p.isPrefixOf (c :: t) || go p t
  go pat.toList s.toList

/-- The retry loop of twitterApiRequest from part_007 lines 111-166.
On 429 the wait is computed (Retry-After seconds times 1000, else
backoffWaitMs) and recorded; the loop continues, and on the final attempt
the thrown rate-limit error is caught by its own catch, kept as lastError
and rethrown after the loop. Non-429 failures rethrow immediately unless
their message contains a rate-limit marker, in which case the catch
retries them. -/
def twitterApiRequestGo (resp : Nat → ApiResponse) :
    Nat → Nat → Option String → List Nat → Except String String × List Nat
  | 0, _, lastError, waits =>
    (Except.error (lastError.getD "Failed after retries"), waits)
  | remaining + 1, attempt, lastError, waits =>
    match resp attempt with
    | ApiResponse.success body => (Except.ok body, waits)
    | ApiResponse.status429 ra =>
      let waitTime :=
        match ra with
        | some secs => secs * 1000
        | none => backoffWaitMs attempt
      if remaining = 0 then
        twitterApiRequestGo resp remaining (attempt + 1) (some rateLimitMessage)
          (waits ++ [waitTime])
      else
        twitterApiRequestGo resp remaining (attempt + 1) lastError (waits ++ [waitTime])
    | ApiResponse.httpError status body =>
      let msg := "Twitter API error " ++ Nat.repr status ++ ": " ++ body
      if strContains "rate limit" msg || strContains "429" msg then
        twitterApiRequestGo resp remaining (attempt + 1) (some msg) waits
      else
        (Except.error msg, waits)

/-- twitterApiRequest entry point with the default retry bound 3. The
attempt counter of the loop climbs while the remaining-attempt count of
the embedding falls; remaining plus attempt stays equal to retries. -/
def twitterApiRequest (resp : Nat → ApiResponse) (retries : Nat := 3) :
    Except String String × List Nat :=
  twitterApiRequestGo resp retries 0 none []

/-! ## YouTube ingestion (src/lib/services/youtube.ts)

fetchTranscript receives the library result as a parameter: none when
YoutubeTranscript.fetchTranscript threw (the catch returns the empty
string), some segments otherwise. fetchChannelVideos receives the parsed
feed entries and the per-video transcript oracle. -/

/-- FETCH_CONFIG.maxContentLength from config.ts. -/
def maxContentLength : Nat := 15000

/-- YouTubeRSSItem from youtube.ts: one parsed feed entry. -/
structure YouTubeRSSItem where
  id : String
  title : String
  link : String
  published : String
  author : String
  thumbnail : String
deriving DecidableEq, Repr, Inhabited

/-- fetchTranscript from youtube.ts lines 65-80: join the caption segment
texts with spaces, truncate to maxContentLength with a trailing ellipsis;
any fetch failure yields the empty string. -/
def fetchTranscript (fetched : Option (List String)) : String :=
  match fetched with
  | none => ""
  | some segments =>
    let text := String.intercalate " " segments
    if text.length > maxContentLength then
      (text.take maxContentLength) ++ "..."
    else
      text

/-- fetchChannelVideos from youtube.ts lines 99-114 (the per-item mapping
after the feed has been parsed): every parsed entry becomes a RawContent;
an empty transcript is replaced by a placeholder content string, the entry
is not dropped. -/
def fetchChannelVideos (sourceId : String) (items : List YouTubeRSSItem)
    (transcriptFetch : String → Option (List String)) : List RawContent :=
  items.map (fun item =>
    let transcript := fetchTranscript (transcriptFetch item.id)
    { id := "yt-" ++ item.id
      sourceId := sourceId
      title := item.title
      url := item.link
      publishedAt := item.published
      content :=
        if transcript == "" then
          "Video: " ++ item.title ++ ". No transcript available."
        else
          transcript
      thumbnail := some item.thumbnail
      author := some item.author })

/-! ## Cron fetch-and-process cycle (src/unnamed/part_005)

fetchAndProcessContent is embedded over the already-joined per-source
fetch results (each per-source failure is caught inside the fetchers and
surfaces as an empty list) and the outcome of the AI processing step,
which is an Except because an exception thrown there or in storage is the
only way into the catch branch. The JSON response carries success flag,
counts and HTTP status. -/

/-- The JSON body and status the cron route answers with. -/
structure CronResult where
  success : Bool
  fetched : Nat
  processed : Nat
  statusCode : Nat
deriving DecidableEq, Repr, Inhabited

/-- fetchAndProcessContent from part_005 lines 87-164: zero fetched items
returns success with the No-new-content message before processing; an
exception from processing or storing answers success false with HTTP 500;
otherwise the processed items are stored and counts reported. -/
def fetchAndProcessContent
    (youtubeContent blogContent twitterContent : List RawContent)
    (processOutcome : Except String (List ProcessedContent))
    (st : StorageData) (now : String) : CronResult × StorageData :=
  let allContent := youtubeContent ++ blogContent ++ twitterContent
  if allContent.length = 0 then
    ({ success := true, fetched := 0, processed := 0, statusCode := 200 }, st)
  else
    match processOutcome with
    | Except.error _ =>
      ({ success := false, fetched := allContent.length, processed := 0,
         statusCode := 500 }, st)
    | Except.ok processedContent =>
      ({ success := true, fetched := allContent.length,
         processed := processedContent.length, statusCode := 200 },
       addContents st processedContent now)

/-! ## Readability metrics (src/unnamed/part_004, the metrics module)

String.prototype.split with a one-character-class-plus regex, the
whitespace class of JavaScript regexes, trim, toLowerCase and
Math.round are modelled below; the score itself is computed in Rat. -/

/-- The JavaScript regex whitespace class, restricted to the characters
that can actually occur here (ASCII whitespace plus NBSP and BOM). -/
def isJsWhitespace (c : Char) : Bool :=
  c.toNat == 32 || (9 ≤ c.toNat && c.toNat ≤ 13) || c.toNat == 160 || c.toNat == 65279

/-- A sentence-terminating character of the class in the split regex. -/
def isSentenceTerminator (c : Char) : Bool :=
  c == '.' || c == '!' || c == '?'

/-- Dropping a matched run never lengthens a list. -/
theorem dropWhileLengthLe (p : α → Bool) :
    ∀ l : List α, (l.dropWhile p).length ≤ l.length := by
  intro l
  induction l with
  | nil => simp [List.dropWhile]
  | cons c t ih =>
    simp only [List.dropWhile]
    cases p c
    · simp
    · simp
      omega

mutual

/-- Core of the JavaScript split on a character-class-plus regex: a
maximal run of delimiter characters ends the current segment. -/
def splitRunsGo (p : Char → Bool) (cur : List Char) : List Char → List (List Char)
  | [] => [cur.reverse]
  | c :: t =>
    if p c then
      cur.reverse :: splitRunsAfter p t
    else
      splitRunsGo p (c :: cur) t

/-- After a delimiter: swallow the rest of the run, then resume. -/
def splitRunsAfter (p : Char → Bool) : List Char → List (List Char)
  | [] => [[]]
  | c :: t =>
    if p c then
      splitRunsAfter p t
    else
      splitRunsGo p [c] t

end

/-- String.prototype.split on a regex matching runs of p-characters. -/
def splitRuns (p : Char → Bool) (s : List Char) : List (List Char) :=
  splitRunsGo p [] s

/-- String.prototype.trim. -/
def jsTrim (s : List Char) : List Char :=
  ((s.dropWhile isJsWhitespace).reverse.dropWhile isJsWhitespace).reverse

/-- Lower-case ASCII letter test for the a-z character class. -/
def isAsciiLowerAlpha (c : Char) : Bool :=
  97 ≤ c.toNat && c.toNat ≤ 122

/-- Membership in the character class of the silent-suffix regex. -/
def inLaeiouy (c : Char) : Bool :=
  c == 'l' || c == 'a' || c == 'e' || c == 'i' || c == 'o' || c == 'u' || c == 'y'

/-- The single (non-global) replace of the silent-suffix regex in
countSyllables: the alternation anchored at the end removes a trailing
consonant-es, ed, or consonant-e, whichever matches leftmost. -/
def stripSilentSuffix (w : List Char) : List Char :=
  match w.reverse with
  | 's' :: 'e' :: x :: t => if inLaeiouy x then w else t.reverse
  | 'd' :: 'e' :: t => t.reverse
  | 'e' :: x :: t => if inLaeiouy x then w else t.reverse
  | _ => w

/-- The replace of a leading y in countSyllables. -/
def stripLeadingY (w : List Char) : List Char :=
  match w with
  | 'y' :: t => t
  | _ => w

/-- Vowel class aeiouy of the syllable-group regex. -/
def isVowelY (c : Char) : Bool :=
  c == 'a' || c == 'e' || c == 'i' || c == 'o' || c == 'u' || c == 'y'

/-- Number of global matches of one-or-two-vowel groups: greedy pairs of
vowels, then single vowels, non-vowels skipped. -/
def countVowelGroups : List Char → Nat
  | [] => 0
  | c :: t =>
    if isVowelY c then
      match t with
      | [] => 1
      | d :: t2 =>
        if isVowelY d then 1 + countVowelGroups t2 else 1 + countVowelGroups (d :: t2)
    else
      countVowelGroups t

/-- countSyllables from part_004 lines 31-41: lower-case, keep only a-z,
short words count one syllable, otherwise strip a silent suffix and a
leading y and count vowel groups with a minimum of one. -/
def countSyllables (word : List Char) : Nat :=
  let w := (word.map Char.toLower).filter isAsciiLowerAlpha
  if w.length ≤ 3 then 1
  else
    let w2 := stripLeadingY (stripSilentSuffix w)
    let groups := countVowelGroups w2
    if groups == 0 then 1 else groups

/-- Math.round as floor of the argument plus one half. -/
def jsRound (q : Rat) : Int :=
  Rat.floor (q + 1 / 2)

/-- calculateReadabilityScore from part_004 lines 7-26: Flesch Reading
Ease over word, sentence and syllable counts, rounded and clamped
into 0..100; degenerate inputs with no words or sentences return 0. -/
def calculateReadabilityScore (text : String) : Int :=
  let sentences := (splitRuns isSentenceTerminator text.toList).filter
    (fun s => (jsTrim s).length > 0)
  let words := (splitRuns isJsWhitespace text.toList).filter
    (fun w => w.length > 0)
  if sentences.length = 0 ∨ words.length = 0 then 0
  else
    let syllableCount := (words.map countSyllables).sum
    let avgWordsPerSentence : Rat := (words.length : Rat) / (sentences.length : Rat)
    let avgSyllablesPerWord : Rat := (syllableCount : Rat) / (words.length : Rat)
    let score : Rat := 206.835 - 1.015 * avgWordsPerSentence - 84.6 * avgSyllablesPerWord
    max 0 (min 100 (jsRound score))

/-! ## A small scanner for the feed regexes (src/lib/types.ts)

parseRSSFeed works by JavaScript regexes of a very limited shape: literal
runs, greedy negated single-character classes, one lazy any-run, and one
capturing group. The Piece language below covers exactly those shapes and
matchSeq implements regex backtracking over it: greedy classes try the
longest run first, the lazy run tries the shortest first, and the overall
search tries successive start positions like RegExp.prototype.exec. -/

/-- One piece of a feed regex: a literal, a greedy negated character
class with minimum count, a lazy any-character run, or a capturing group
around a piece. -/
inductive Piece where
  | lit : List Char → Piece
  | cls : (Char → Bool) → Nat → Piece
  | lazyAny : Piece
  | grp : Piece → Piece

/-- Match a piece sequence at the start of the input with backtracking.
Returns the capture of the (single) group together with the remaining
input after the whole match. -/
def matchSeq : List Piece → List Char → Option (Option (List Char) × List Char)
  | [], input => some (none, input)
  | Piece.lit s :: ps, input =>
    if s.isPrefixOf input then matchSeq ps (input.drop s.length) else none
  | Piece.cls p m :: ps, input =>
    let run := (input.takeWhile p).length
    (((List.range (run + 1)).reverse).filter (fun k => m ≤ k)).findSome?
      (fun k => matchSeq ps (input.drop k))
  | Piece.lazyAny :: ps, input =>
    (List.range (input.length + 1)).findSome?
      (fun k => matchSeq ps (input.drop k))
  | Piece.grp inner :: ps, input =>
    match inner with
    | Piece.lit s =>
      if s.isPrefixOf input then
        (matchSeq ps (input.drop s.length)).map (fun r => (some s, r.2))
      else none
    | Piece.cls p m =>
      let run := (input.takeWhile p).length
      (((List.range (run + 1)).reverse).filter (fun k => m ≤ k)).findSome?
        (fun k => (matchSeq ps (input.drop k)).map (fun r => (some (input.take k), r.2)))
    | Piece.lazyAny =>
      (List.range (input.length + 1)).findSome?
        (fun k => (matchSeq ps (input.drop k)).map (fun r => (some (input.take k), r.2)))
    | Piece.grp _ => none
termination_by ps _ => ps.length
decreasing_by all_goals simp [Nat.lt_succ_self]

/-- Find the first match over successive start positions, like exec. -/
def searchFirst (ps : List Piece) : List Char → Option (Option (List Char) × List Char)
  | [] => matchSeq ps []
  | c :: t =>
    match matchSeq ps (c :: t) with
    | some r => some r
    | none => searchFirst ps t

/-- The capture of the first match, like str.match(re) indexed at 1. -/
def firstCapture (ps : List Piece) (s : List Char) : Option (List Char) :=
  match searchFirst ps s with
  | some (some c, _) => some c
  | _ => none

/-- Capture with the undefined case collapsed to the empty string, as the
falsy-chaining in the source treats undefined and the empty string alike. -/
def capt (ps : List Piece) (s : List Char) : List Char :=
  (firstCapture ps s).getD []

/-- JavaScript logical-or on strings: the left operand unless it is
empty (falsy). -/
def jsOr (a b : List Char) : List Char :=
  if a.isEmpty then b else a

/-- All captures of a global regex, advancing past each match; the fuel
bounds the iteration count, and an empty match advances one position as
exec does with its lastIndex bump. -/
def allMatchesGo (ps : List Piece) : Nat → List Char → List (List Char)
  | 0, _ => []
  | fuel + 1, s =>
    match searchFirst ps s with
    | none => []
    | some (cap, rest) =>
      let next := if rest.length < s.length then rest else rest.drop 1
      cap.getD [] :: allMatchesGo ps fuel next

/-- All captures of a global regex over the input. -/
def allMatches (ps : List Piece) (s : List Char) : List (List Char) :=
  allMatchesGo ps (s.length + 1) s

/-! ## Feed parsing (parseRSSFeed in src/lib/types.ts lines 135-218) -/

/-- Literal regex piece from a string. -/
def plit (s : String) : Piece := Piece.lit s.toList

/-- Negated single-character class. -/
def notChar (c : Char) (d : Char) : Bool := !(d == c)

/-- The double-quote character. -/
def quoteChar : Char := Char.ofNat 34

/-- The double quote as a one-character string. -/
def qs : String := String.mk [quoteChar]

/-- Substring test on character lists. -/
def hasSubList (pat : List Char) : List Char → Bool
  | [] => pat.isEmpty
  | c :: t => pat.isPrefixOf (c :: t) || hasSubList pat t

/-- Atom detection: a feed tag plus the Atom namespace marker. -/
def isAtomFeed (xml : List Char) : Bool :=
  hasSubList "<feed".toList xml &&
    hasSubList ("xmlns=" ++ qs ++ "http://www.w3.org/2005/Atom" ++ qs).toList xml

/-- RDF detection: an rdf namespace attribute or an rdf:RDF root. -/
def isRDFFeed (xml : List Char) : Bool :=
  hasSubList "xmlns:rdf=".toList xml || hasSubList "<rdf:RDF".toList xml

/-- The three wire formats the parser distinguishes. -/
inductive FeedFormat where
  | atom
  | rdf
  | rss2
deriving DecidableEq, Repr, Inhabited

/-- Format classification with the same precedence as the source: the
Atom test decides the item regex, the RDF test only the field branch. -/
def detectFormat (xml : List Char) : FeedFormat :=
  if isAtomFeed xml then FeedFormat.atom
  else if isRDFFeed xml then FeedFormat.rdf
  else FeedFormat.rss2

/-- Item-block regex: entry elements for Atom, item elements (with
attributes tolerated in the opening tag) otherwise. -/
def blockPat (fmt : FeedFormat) : List Piece :=
  match fmt with
  | FeedFormat.atom => [plit "<entry>", Piece.grp Piece.lazyAny, plit "</entry>"]
  | _ => [plit "<item", Piece.cls (notChar '>') 0, plit ">",
          Piece.grp Piece.lazyAny, plit "</item>"]

/-- The matched item blocks of the document, in document order. -/
def itemEntries (fmt : FeedFormat) (xml : List Char) : List (List Char) :=
  allMatches (blockPat fmt) xml

/-- Plain-text tag capture of the shape tag, one-or-more non-angle
characters, closing tag. -/
def tagTextPat (tag : String) : List Piece :=
  [plit ("<" ++ tag ++ ">"), Piece.grp (Piece.cls (notChar '<') 1),
   plit ("</" ++ tag ++ ">")]

/-- CDATA tag capture with a lazy body. -/
def tagCdataPat (tag : String) : List Piece :=
  [plit ("<" ++ tag ++ "><![CDATA["), Piece.grp Piece.lazyAny,
   plit ("]]></" ++ tag ++ ">")]

/-- Tag with tolerated attributes and a plain-text capture. -/
def tagAttrTextPat (tag : String) : List Piece :=
  [plit ("<" ++ tag), Piece.cls (notChar '>') 0, plit ">",
   Piece.grp (Piece.cls (notChar '<') 1), plit ("</" ++ tag ++ ">")]

/-- Tag with tolerated attributes and a CDATA body. -/
def tagAttrCdataPat (tag : String) : List Piece :=
  [plit ("<" ++ tag), Piece.cls (notChar '>') 0, plit "><![CDATA[",
   Piece.grp Piece.lazyAny, plit ("]]></" ++ tag ++ ">")]

/-- Tag with tolerated attributes and a lazy body. -/
def tagAttrLazyPat (tag : String) : List Piece :=
  [plit ("<" ++ tag), Piece.cls (notChar '>') 0, plit ">",
   Piece.grp Piece.lazyAny, plit ("</" ++ tag ++ ">")]

/-- Tag with a lazy body. -/
def tagLazyPat (tag : String) : List Piece :=
  [plit ("<" ++ tag ++ ">"), Piece.grp Piece.lazyAny, plit ("</" ++ tag ++ ">")]

/-- The Atom link regex: an href attribute value inside the link tag. -/
def atomLinkPat : List Piece :=
  [plit "<link", Piece.cls (notChar '>') 1, plit ("href=" ++ qs),
   Piece.grp (Piece.cls (notChar quoteChar) 1), plit qs]

/-- The Atom author regex: a name element nested in the author element. -/
def atomAuthorPat : List Piece :=
  [plit "<author>", Piece.lazyAny, plit "<name>",
   Piece.grp (Piece.cls (notChar '<') 1), plit "</name>"]

/-- The media:thumbnail url attribute regex. -/
def rssMediaThumbPat : List Piece :=
  [plit "<media:thumbnail", Piece.cls (notChar '>') 1, plit ("url=" ++ qs),
   Piece.grp (Piece.cls (notChar quoteChar) 1), plit qs]

/-- The enclosure url regex restricted to image enclosures. -/
def rssEnclosureImgPat : List Piece :=
  [plit "<enclosure", Piece.cls (notChar '>') 1, plit ("url=" ++ qs),
   Piece.grp (Piece.cls (notChar quoteChar) 1), plit qs,
   Piece.cls (notChar '>') 1, plit ("type=" ++ qs ++ "image")]

/-- Raw title of an item block, with the CDATA variant overriding the
plain variant exactly as the two match chains in the source do. -/
def extractRawTitle (fmt : FeedFormat) (entry : List Char) : List Char :=
  match fmt with
  | FeedFormat.atom =>
    jsOr (capt (tagAttrCdataPat "title") entry) (capt (tagAttrTextPat "title") entry)
  | FeedFormat.rdf => capt (tagTextPat "title") entry
  | FeedFormat.rss2 =>
    jsOr (capt (tagCdataPat "title") entry) (capt (tagTextPat "title") entry)

/-- Raw canonical link of an item block. -/
def extractRawLink (fmt : FeedFormat) (entry : List Char) : List Char :=
  match fmt with
  | FeedFormat.atom => capt atomLinkPat entry
  | FeedFormat.rdf => capt (tagTextPat "link") entry
  | FeedFormat.rss2 => capt (tagTextPat "link") entry

/-- Raw publication timestamp: published or updated for Atom, dc:date
for RDF, pubDate for RSS 2.0. -/
def extractRawPubDate (fmt : FeedFormat) (entry : List Char) : List Char :=
  match fmt with
  | FeedFormat.atom =>
    jsOr (capt (tagTextPat "published") entry) (capt (tagTextPat "updated") entry)
  | FeedFormat.rdf => capt (tagTextPat "dc:date") entry
  | FeedFormat.rss2 => capt (tagTextPat "pubDate") entry

/-- Raw description or summary body. -/
def extractRawDescription (fmt : FeedFormat) (entry : List Char) : List Char :=
  match fmt with
  | FeedFormat.atom =>
    jsOr (capt (tagAttrCdataPat "summary") entry) (capt (tagAttrTextPat "summary") entry)
  | FeedFormat.rdf => capt (tagLazyPat "description") entry
  | FeedFormat.rss2 =>
    jsOr (capt (tagCdataPat "description") entry) (capt (tagTextPat "description") entry)

/-- Raw content body; RDF reuses the description. -/
def extractRawContent (fmt : FeedFormat) (entry : List Char) : List Char :=
  match fmt with
  | FeedFormat.atom =>
    jsOr (capt (tagAttrCdataPat "content") entry) (capt (tagAttrLazyPat "content") entry)
  | FeedFormat.rdf => extractRawDescription FeedFormat.rdf entry
  | FeedFormat.rss2 => capt (tagCdataPat "content:encoded") entry

/-- Raw author. -/
def extractRawAuthor (fmt : FeedFormat) (entry : List Char) : List Char :=
  match fmt with
  | FeedFormat.atom => capt atomAuthorPat entry
  | FeedFormat.rdf => capt (tagTextPat "dc:creator") entry
  | FeedFormat.rss2 =>
    jsOr (capt (tagCdataPat "dc:creator") entry) (capt (tagTextPat "author") entry)

/-- Raw thumbnail, only probed in the RSS 2.0 branch. -/
def extractRawThumbnail (fmt : FeedFormat) (entry : List Char) : List Char :=
  match fmt with
  | FeedFormat.rss2 =>
    jsOr (capt rssMediaThumbPat entry) (capt rssEnclosureImgPat entry)
  | _ => []

/-- Replace every occurrence of a literal pattern, scanning left to
right without rescanning the substituted text, like a global replace. -/
def replaceSub (pat repl : List Char) (s : List Char) : List Char :=
  match pat, s with
  | _, [] => []
  | [], _ => s
  | _ :: pr, c :: t =>
    if pat.isPrefixOf (c :: t) then
      repl ++ replaceSub pat repl (t.drop pr.length)
    else
      c :: replaceSub pat repl t
termination_by s.length
decreasing_by
  · simp only [List.length_cons, List.length_drop]
    omega
  · simp [Nat.lt_succ_self]

/-- Taking a matched run never lengthens a list. -/
theorem takeWhileLengthLe (p : α → Bool) :
    ∀ l : List α, (l.takeWhile p).length ≤ l.length := by
  intro l
  induction l with
  | nil => simp [List.takeWhile]
  | cons c t ih =>
    simp only [List.takeWhile]
    cases p c
    · simp
    · simp
      omega

/-- parseInt on a digit run. -/
def digitsToNat (ds : List Char) : Nat :=
  ds.foldl (fun a c => a * 10 + (c.toNat - 48)) 0

/-- String.fromCharCode: the code point is truncated to a 16-bit code
unit; a value that is not a Unicode scalar degrades to the Char.ofNat
fallback. -/
def fromCharCode (n : Nat) : Char :=
  Char.ofNat (n % 65536)

/-- The global numeric-character-reference replace: an ampersand-hash
followed by at least one digit and a semicolon becomes the denoted
character, anything else is copied. -/
def replaceNumericEntities : List Char → List Char
  | [] => []
  | '&' :: '#' :: rest =>
    let digits := rest.takeWhile Char.isDigit
    (match hd : digits, hr : rest.drop digits.length with
     | _ :: _, ';' :: tail =>
       fromCharCode (digitsToNat digits) :: replaceNumericEntities tail
     | _, _ => '&' :: replaceNumericEntities ('#' :: rest))
  | c :: t => c :: replaceNumericEntities t
termination_by s => s.length
decreasing_by
  · have h1 := takeWhileLengthLe Char.isDigit rest
    have h2 := congrArg List.length hr
    simp only [List.length_drop, List.length_cons] at h2
    simp only [List.length_cons]
    omega
  · simp [Nat.lt_succ_self]
  · simp only [List.length_cons]
    omega

/-- decodeHTMLEntities from types.ts lines 223-233: the fixed chain of
global replaces followed by numeric character references. -/
def decodeHTMLEntities (s : List Char) : List Char :=
  let s1 := replaceSub "&amp;".toList ['&'] s
  let s2 := replaceSub "&lt;".toList ['<'] s1
  let s3 := replaceSub "&gt;".toList ['>'] s2
  let s4 := replaceSub "&quot;".toList [Char.ofNat 34] s3
  let s5 := replaceSub "&#39;".toList [Char.ofNat 39] s4
  let s6 := replaceSub "&apos;".toList [Char.ofNat 39] s5
  let s7 := replaceSub "&nbsp;".toList [' '] s6
  replaceNumericEntities s7

/-- The tag-stripping global replace: an angle-bracket run with at least
one non-angle character and a closing bracket becomes a space. -/
def stripTags : List Char → List Char
  | [] => []
  | c :: t =>
    if c == '<' then
      let seg := t.takeWhile (notChar '>')
      (match hs : seg, hr : t.drop seg.length with
       | _ :: _, '>' :: rest => ' ' :: stripTags rest
       | _, _ => c :: stripTags t)
    else
      c :: stripTags t
termination_by s => s.length
decreasing_by
  · have h1 := takeWhileLengthLe (notChar '>') t
    have h2 := congrArg List.length hr
    simp only [List.length_drop, List.length_cons] at h2
    simp only [List.length_cons]
    omega
  · simp [Nat.lt_succ_self]
  · simp [Nat.lt_succ_self]

mutual

/-- The whitespace-collapsing global replace. -/
def collapseWhitespace : List Char → List Char
  | [] => []
  | c :: t =>
    if isJsWhitespace c then
      ' ' :: collapseSkipWhitespace t
    else
      c :: collapseWhitespace t

/-- Inside a whitespace run: swallow the remainder of the run. -/
def collapseSkipWhitespace : List Char → List Char
  | [] => []
  | c :: t =>
    if isJsWhitespace c then
      collapseSkipWhitespace t
    else
      c :: collapseWhitespace t

end

/-- stripHTML from types.ts lines 238-243. -/
def stripHTML (s : List Char) : List Char :=
  jsTrim (collapseWhitespace (stripTags s))

/-- The uniform item shape parseRSSFeed produces. -/
structure RSSItem where
  title : String
  link : String
  pubDate : String
  description : String
  content : String
  author : String
  thumbnail : String
deriving DecidableEq, Repr, Inhabited

/-- The well-formedness test of the push guard: a truthy raw title and a
truthy raw link. -/
def wellFormedEntry (fmt : FeedFormat) (entry : List Char) : Bool :=
  !(extractRawTitle fmt entry).isEmpty && !(extractRawLink fmt entry).isEmpty

/-- The item record pushed for a well-formed block, with the field
post-processing of the source: trim and entity-decode on the title, trim
on the link, entity-decode and markup-strip on description and content,
the description standing in for an absent content. -/
def buildRSSItem (fmt : FeedFormat) (entry : List Char) : RSSItem :=
  let title := extractRawTitle fmt entry
  let link := extractRawLink fmt entry
  let description := extractRawDescription fmt entry
  let content := extractRawContent fmt entry
  { title := String.mk (decodeHTMLEntities (jsTrim title))
    link := String.mk (jsTrim link)
    pubDate := String.mk (extractRawPubDate fmt entry)
    description := String.mk (stripHTML (decodeHTMLEntities description))
    content := String.mk (stripHTML (decodeHTMLEntities (jsOr content description)))
    author := String.mk (extractRawAuthor fmt entry)
    thumbnail := String.mk (extractRawThumbnail fmt entry) }

/-- The per-block step of the parse loop: push the built item when the
guard holds, skip the block silently otherwise. -/
def toRSSItem (fmt : FeedFormat) (entry : List Char) : Option RSSItem :=
  if wellFormedEntry fmt entry then some (buildRSSItem fmt entry) else none

/-- parseRSSFeed with the item cap as an explicit parameter: classify the
document, scan the item blocks in document order, keep the well-formed
ones and truncate. -/
def parseRSSFeedWith (itemCap : Nat) (xml : String) : List RSSItem :=
  let cs := xml.toList
  let fmt := detectFormat cs
  ((itemEntries fmt cs).filterMap (toRSSItem fmt)).take itemCap

/-- FETCH_CONFIG.maxItemsPerSource from src/lib/config.ts. -/
def maxItemsPerSource : Nat := 5

/-- parseRSSFeed from types.ts lines 135-218 at the configured cap. -/
def parseRSSFeed (xml : String) : List RSSItem :=
  parseRSSFeedWith maxItemsPerSource xml

/-! ## Shared helper lemmas and concrete fixtures -/

/-- A filterMap whose function is a guarded some is a filter then map. -/
theorem filterMapGuardEq (p : α → Bool) (f : α → β) (l : List α) :
    l.filterMap (fun a => if p a then some (f a) else none) = (l.filter p).map f := by
  induction l with
  | nil => simp
  | cons a t ih =>
    by_cases h : p a
    · simp [List.filterMap_cons, List.filter_cons, h, ih]
    · simp [List.filterMap_cons, List.filter_cons, h, ih]

/-- getD commutes with map below the length. -/
theorem getdMapEq (l : List α) (f : α → β) (d : α) (d2 : β) :
    ∀ i, i < l.length → (l.map f).getD i d2 = f (l.getD i d) := by
  induction l with
  | nil => intro i h; simp at h
  | cons a t ih =>
    intro i h
    cases i with
    | zero => simp
    | succ j =>
      simp only [List.map_cons, List.getD_cons_succ]
      exact ih j (by simpa using h)

/-- A parsed feed entry of a demonstration video without captions. -/
def demoVideoItem : YouTubeRSSItem :=
  { id := "abc123", title := "Demo Video",
    link := "https://youtube.example/watch/abc123",
    published := "2026-01-01T00:00:00Z", author := "Demo Channel",
    thumbnail := "https://img.example/abc123.jpg" }

/-! ## Claim theorems -/

/-- C1, counterexample: a cycle in which every requested source yields
zero content answers with success set to true (the No-new-content reply),
not with a failure, refuting the claim that total zero-content makes the
cycle report failure to its caller. -/
theorem c1_counterexample :
    (fetchAndProcessContent [] [] [] (Except.ok []) emptyStorage "t1").1.success = true ∧
    ¬ ((fetchAndProcessContent [] [] [] (Except.ok []) emptyStorage "t1").1.success = false) := by
  constructor
  · rfl
  · intro h
    exact absurd h (by decide)

/-- C1, amended: a total zero-content cycle reports success with zero
counts and leaves storage untouched; the cycle reports failure exactly
when content was fetched and the processing-or-storage step raised an
exception — zero content is never the failure condition. -/
theorem c1_amended (yt blog tw : List RawContent)
    (p : Except String (List ProcessedContent)) (st : StorageData) (now : String) :
    ((yt ++ blog ++ tw) = [] →
      (fetchAndProcessContent yt blog tw p st now).1 =
        { success := true, fetched := 0, processed := 0, statusCode := 200 } ∧
      (fetchAndProcessContent yt blog tw p st now).2 = st) ∧
    ((fetchAndProcessContent yt blog tw p st now).1.success = false ↔
      ((yt ++ blog ++ tw) ≠ [] ∧ ∃ e, p = Except.error e)) := by
  constructor
  · intro h
    simp [fetchAndProcessContent, h]
  · by_cases h : (yt ++ blog ++ tw).length = 0
    · have hnil : (yt ++ blog ++ tw) = [] := List.length_eq_zero.mp h
      constructor
      · intro hfail
        have hsucc : (fetchAndProcessContent yt blog tw p st now).1.success = true := by
          unfold fetchAndProcessContent
          rw [if_pos h]
        rw [hsucc] at hfail
        exact absurd hfail (by decide)
      · rintro ⟨hcontra, -⟩
        exact absurd hnil hcontra
    · have hne : (yt ++ blog ++ tw) ≠ [] := by
        intro hc
        exact h (by simp [hc])
      unfold fetchAndProcessContent
      rw [if_neg h]
      cases p with
      | error e =>
        constructor
        · intro _
          exact ⟨hne, e, rfl⟩
        · intro _
          rfl
      | ok v =>
        constructor
        · intro hfail
          exact absurd hfail (by simp)
        · rintro ⟨-, e, he⟩
          exact absurd he (by simp)

/-- C1, witness for the amended theorem at a concrete zero-content
cycle. -/
theorem c1_witness :
    (fetchAndProcessContent [] [] [] (Except.ok []) emptyStorage "t1").1 =
      { success := true, fetched := 0, processed := 0, statusCode := 200 } :=
  ((c1_amended [] [] [] (Except.ok []) emptyStorage "t1").1 rfl).1

/-- C3: on three consecutive 429 responses without Retry-After the
computed waits are exactly the backoff values 15000, 30000, 60000 ms;
the backoff after attempt a is min of 15000 times 2 to the a and 60000,
is monotone in the attempt number, and never exceeds the 60 s cap. -/
theorem c3_backoff :
    (twitterApiRequest (fun _ => ApiResponse.status429 none) 3).2 =
      [backoffWaitMs 0, backoffWaitMs 1, backoffWaitMs 2] ∧
    (twitterApiRequest (fun _ => ApiResponse.status429 none) 3).2 =
      [15000, 30000, 60000] ∧
    (∀ a, backoffWaitMs a = min (15000 * 2 ^ a) 60000) ∧
    (∀ a b, a ≤ b → backoffWaitMs a ≤ backoffWaitMs b) ∧
    (∀ a, backoffWaitMs a ≤ 60000) := by
  refine ⟨rfl, rfl, fun a => rfl, ?_, fun a => min_le_right _ _⟩
  intro a b h
  exact min_le_min
    (Nat.mul_le_mul_left _ (Nat.pow_le_pow_right (by norm_num) h)) le_rfl

/-- C3, witness: the monotonicity hypothesis discharged at attempts one
and two. -/
theorem c3_backoff_witness :
    (1 : Nat) ≤ 2 ∧ backoffWaitMs 1 ≤ backoffWaitMs 2 :=
  ⟨by decide, c3_backoff.2.2.2.1 1 2 (by decide)⟩

/-- The stored-winner invariant of the data model: the winner names one
of the two compared models or the tie sentinel. -/
def winnerValid (comp : ModelComparison) : Prop :=
  comp.winner = comp.modelA ∨ comp.winner = comp.modelB ∨ comp.winner = "tie"

instance (comp : ModelComparison) : Decidable (winnerValid comp) :=
  inferInstanceAs (Decidable (comp.winner = comp.modelA ∨ comp.winner = comp.modelB ∨
    comp.winner = "tie"))

/-- C8, counterexample: recordComparison accepts any winner string and
stores it verbatim, so a record whose winner is neither declared model
nor the tie sentinel ends up stored, refuting the invariant as stated. -/
theorem c8_counterexample :
    ∃ comp ∈ (recordComparison emptyStorage "c1" "mA" "mB" "bogus" "cmp-1" "t1").comparisons,
      ¬ winnerValid comp := by
  decide

/-- C8, amended: recordComparison performs no validation; the invariant
is preserved, not enforced. Whenever the prior log satisfies the
invariant and the given winner is one of the two given model identifiers
or the tie sentinel, every stored record still satisfies it. -/
theorem c8_amended (data : StorageData) (cid a b w nid now : String)
    (hprev : ∀ comp ∈ data.comparisons, winnerValid comp)
    (hw : w = a ∨ w = b ∨ w = "tie") :
    ∀ comp ∈ (recordComparison data cid a b w nid now).comparisons, winnerValid comp := by
  intro comp hmem
  have hmem2 : comp ∈ data.comparisons ++ [ModelComparison.mk nid cid a b w now] := by
    simp only [recordComparison] at hmem
    exact List.mem_of_mem_drop hmem
  rcases List.mem_append.mp hmem2 with hold | hnew
  · exact hprev comp hold
  · have heq : comp = ModelComparison.mk nid cid a b w now := by
      simpa using hnew
    subst heq
    exact hw

/-- C8, witness for the amended theorem at a concrete valid vote: the
single stored record satisfies the invariant. -/
theorem c8_witness :
    winnerValid ((recordComparison emptyStorage "c1" "mA" "mB" "tie" "cmp-1"
      "t1").comparisons.getD 0 default) := by
  have h := c8_amended emptyStorage "c1" "mA" "mB" "tie" "cmp-1" "t1"
    (by decide) (Or.inr (Or.inr rfl))
  exact h _ (by decide)

/-- C9, counterexample: a video entry whose transcript fetch fails (the
caught failure yields the empty transcript) is not dropped: the
ingestion output contains a RawContent for it, with a placeholder
content string, refuting the claim that such entries never enter the
pipeline. -/
theorem c9_counterexample :
    fetchTranscript none = "" ∧
    fetchChannelVideos "yt-src" [demoVideoItem] (fun _ => none) =
      [{ id := "yt-abc123", sourceId := "yt-src", title := "Demo Video",
         url := "https://youtube.example/watch/abc123",
         publishedAt := "2026-01-01T00:00:00Z",
         content := "Video: Demo Video. No transcript available.",
         thumbnail := some "https://img.example/abc123.jpg",
         author := some "Demo Channel" }] ∧
    (fetchChannelVideos "yt-src" [demoVideoItem] (fun _ => none)).length ≠ 0 := by
  refine ⟨rfl, rfl, by decide⟩

/-- C9, amended: the ingestion step keeps every parsed video entry —
the output has exactly one RawContent per entry — and an entry whose
retrieved transcript is empty is emitted with the placeholder content
naming the video instead of being dropped; no minimum-length threshold
exists. -/
theorem c9_amended (sourceId : String) (items : List YouTubeRSSItem)
    (tr : String → Option (List String)) :
    (fetchChannelVideos sourceId items tr).length = items.length ∧
    ∀ i, i < items.length →
      fetchTranscript (tr (items.getD i default).id) = "" →
      ((fetchChannelVideos sourceId items tr).getD i default).content =
        "Video: " ++ (items.getD i default).title ++ ". No transcript available." := by
  constructor
  · simp [fetchChannelVideos]
  · intro i hi hempty
    unfold fetchChannelVideos
    rw [getdMapEq items _ default _ i hi]
    simp only [hempty]
    rfl

/-- C9, witness for the amended theorem on a one-entry channel whose
transcript fetch fails. -/
theorem c9_witness :
    ((0 : Nat) < [demoVideoItem].length ∧
      fetchTranscript ((fun _ => none : String → Option (List String))
        ([demoVideoItem].getD 0 default).id) = "") ∧
    ((fetchChannelVideos "yt-src" [demoVideoItem] (fun _ => none)).getD 0 default).content =
      "Video: " ++ ([demoVideoItem].getD 0 default).title ++ ". No transcript available." :=
  ⟨⟨by decide, rfl⟩,
    (c9_amended "yt-src" [demoVideoItem] (fun _ => none)).2 0 (by decide) rfl⟩

/-- C10: updateRating with an unmatched contentId, or a matched content
but unmatched summaryId, completes without error and performs no write
(no storage state is produced, the persisted value stays as it was). -/
theorem c10_updateRating_noop (data : StorageData) (cid sid : String)
    (score : Rat) (now : String) :
    (data.contents.find? (fun c => c.id == cid) = none →
      updateRating data cid sid score now = none) ∧
    (∀ content, data.contents.find? (fun c => c.id == cid) = some content →
      content.summaries.find? (fun s => s.id == sid) = none →
      updateRating data cid sid score now = none) := by
  constructor
  · intro h
    simp [updateRating, h]
  · intro content hc hs
    simp [updateRating, hc, hs]

/-- C10, witness: a rating against an empty store writes nothing. -/
theorem c10_witness :
    updateRating emptyStorage "c1" "s1" 5 "t1" = none :=
  (c10_updateRating_noop emptyStorage "c1" "s1" 5 "t1").1 rfl

/-- A stored processed article used by the retention fixtures. -/
def pcOld : ProcessedContent :=
  { id := "pc-old", rawContentId := "raw-old", sourceId := "src",
    sourceName := "Src", sourceType := SourceType.blog, title := "Old",
    url := "http://old.example", publishedAt := "2026-01-01",
    thumbnail := none, author := none, processedAt := "2026-01-02",
    summaries := [] }

/-- A fresh processed article used by the retention fixtures. -/
def pcNew : ProcessedContent :=
  { id := "pc-new", rawContentId := "raw-new", sourceId := "src",
    sourceName := "Src", sourceType := SourceType.blog, title := "New",
    url := "http://new.example", publishedAt := "2026-02-01",
    thumbnail := none, author := none, processedAt := "2026-02-02",
    summaries := [] }

/-- A storage state already holding 99 articles. -/
def store99 : StorageData :=
  { contents := List.replicate 99 pcOld, comparisons := [],
    lastFetchedAt := "t0", lastEmailSentAt := none }

/-- A batch of 5 fresh articles. -/
def batch5 : List ProcessedContent :=
  List.replicate 5 pcNew

/-- C5: inserting 5 fresh items into a store of 99 yields the batch
prepended and exactly 100 stored items (the 4 oldest evicted); every
addContents leaves at most 100 contents; every recordComparison leaves
at most — and exactly the most recent — 500 comparisons, a suffix of
the log with the new record appended. -/
theorem c5_retention :
    (∀ (d : StorageData) (batch : List ProcessedContent) (t : String),
      d.contents.length = 99 →
      batch.length = 5 →
      (∀ c ∈ batch, c.rawContentId ≠ testSentinelId ∧
        (d.contents.map (fun e => e.rawContentId)).contains c.rawContentId = false) →
      (addContents d batch t).contents = batch ++ d.contents.take 95 ∧
      (addContents d batch t).contents.length = 100) ∧
    (∀ (d : StorageData) (batch : List ProcessedContent) (t : String),
      (addContents d batch t).contents.length ≤ 100) ∧
    (∀ (d : StorageData) (cid a b w nid now : String),
      (recordComparison d cid a b w nid now).comparisons.length ≤ 500 ∧
      (recordComparison d cid a b w nid now).comparisons.length =
        min (d.comparisons.length + 1) 500 ∧
      (recordComparison d cid a b w nid now).comparisons <:+
        (d.comparisons ++ [ModelComparison.mk nid cid a b w now])) := by
  refine ⟨?_, ?_, ?_⟩
  · intro d batch t h99 h5 hb
    have hny : batch.any (fun c => c.rawContentId == testSentinelId) = false := by
      rw [List.any_eq_false]
      intro c hc
      simpa using (hb c hc).1
    have hun : batch.filter (fun c =>
        c.rawContentId == testSentinelId ||
          !((d.contents.map (fun e => e.rawContentId)).contains c.rawContentId)) = batch := by
      rw [List.filter_eq_self]
      intro c hc
      rw [(hb c hc).2]
      simp
    have hres : (addContents d batch t).contents = (batch ++ d.contents).take 100 := by
      simp only [addContents, hny, Bool.false_eq_true, if_false, hun]
    constructor
    · rw [hres, List.take_append_eq_append_take, h5,
        List.take_of_length_le (by omega)]
    · rw [hres, List.length_take, List.length_append, h99, h5]
      omega
  · intro d batch t
    simp only [addContents, List.length_take]
    exact min_le_left _ _
  · intro d cid a b w nid now
    refine ⟨?_, ?_, ?_⟩
    · simp only [recordComparison, List.length_drop, List.length_append,
        List.length_cons, List.length_nil]
      omega
    · simp only [recordComparison, List.length_drop, List.length_append,
        List.length_cons, List.length_nil]
      omega
    · simp only [recordComparison]
      exact List.drop_suffix _ _

/-- C5, witness: the retention scenario at a concrete 99-item store and
5-item fresh batch. -/
theorem c5_witness :
    store99.contents.length = 99 ∧ batch5.length = 5 ∧
    (addContents store99 batch5 "t1").contents = batch5 ++ store99.contents.take 95 ∧
    (addContents store99 batch5 "t1").contents.length = 100 :=
  ⟨by decide, by decide,
    (c5_retention.1 store99 batch5 "t1" (by decide) (by decide) (by decide)).1,
    (c5_retention.1 store99 batch5 "t1" (by decide) (by decide) (by decide)).2⟩

/-- C4: with the stored contents containing the first pass output, a
second pass of the same batch inserts nothing when the batch carries no
sentinel entry, and a batch carrying exactly one sentinel entry yields
exactly one replacement: the new sentinel record prepended and every
stored sentinel record removed, everything else untouched. -/
theorem c4_dedup (d0 : StorageData) (batch : List ProcessedContent) (t1 t2 : String)
    (d1 : StorageData) (hd1 : d1 = addContents d0 batch t1)
    (hstored : ∀ c ∈ batch,
      (d1.contents.map (fun e => e.rawContentId)).contains c.rawContentId = true) :
    ((∀ c ∈ batch, c.rawContentId ≠ testSentinelId) →
      (addContents d1 batch t2).contents = d1.contents) ∧
    (∀ s, batch.filter (fun c => c.rawContentId == testSentinelId) = [s] →
      (addContents d1 batch t2).contents =
        s :: d1.contents.filter (fun e => !(e.rawContentId == testSentinelId))) := by
  have hlen : d1.contents.length ≤ 100 := by
    subst hd1
    simp only [addContents]
    rw [List.length_take]
    exact min_le_left _ _
  constructor
  · intro hns
    have hny : batch.any (fun c => c.rawContentId == testSentinelId) = false := by
      rw [List.any_eq_false]
      intro c hc
      simpa using hns c hc
    have hun : batch.filter (fun c =>
        c.rawContentId == testSentinelId ||
          !((d1.contents.map (fun e => e.rawContentId)).contains c.rawContentId)) = [] := by
      rw [List.filter_eq_nil_iff]
      intro c hc
      rw [hstored c hc]
      simp [hns c hc]
    simp only [addContents, hny, Bool.false_eq_true, if_false, hun, List.nil_append]
    exact List.take_of_length_le hlen
  · intro s hfs
    have hsmemf : s ∈ batch.filter (fun c => c.rawContentId == testSentinelId) := by
      rw [hfs]
      exact List.mem_singleton_self s
    have hsmem : s ∈ batch := List.mem_of_mem_filter hsmemf
    have hssent : s.rawContentId = testSentinelId := by
      have := List.of_mem_filter hsmemf
      simpa using this
    have hany : batch.any (fun c => c.rawContentId == testSentinelId) = true := by
      rw [List.any_eq_true]
      exact ⟨s, hsmem, by simp [hssent]⟩
    have hun : batch.filter (fun c =>
        c.rawContentId == testSentinelId ||
          !((d1.contents.map (fun e => e.rawContentId)).contains c.rawContentId)) =
        batch.filter (fun c => c.rawContentId == testSentinelId) := by
      apply List.filter_congr
      intro c hc
      by_cases hcs : c.rawContentId = testSentinelId
      · simp [hcs]
      · rw [hstored c hc]
        simp
    have hex : ∃ e ∈ d1.contents, ¬ ((fun e => !(e.rawContentId == testSentinelId)) e = true) := by
      have hc := hstored s hsmem
      rw [hssent] at hc
      have hmem : testSentinelId ∈ d1.contents.map (fun e => e.rawContentId) := by
        simpa using hc
      obtain ⟨e, he, hee⟩ := List.mem_map.mp hmem
      exact ⟨e, he, by simp [hee]⟩
    have hlt : (d1.contents.filter (fun e => !(e.rawContentId == testSentinelId))).length <
        d1.contents.length :=
      List.length_filter_lt_length_iff_exists.mpr hex
    simp only [addContents, hany, if_true, hun, hfs, List.singleton_append]
    apply List.take_of_length_le
    simp only [List.length_cons]
    omega

/-- C4, witness: re-adding a one-article batch whose article is already
stored inserts nothing. -/
theorem c4_witness :
    (addContents (addContents emptyStorage [pcNew] "t1") [pcNew] "t2").contents =
      (addContents emptyStorage [pcNew] "t1").contents :=
  (c4_dedup emptyStorage [pcNew] "t1" "t2" (addContents emptyStorage [pcNew] "t1")
    rfl (by decide)).1 (by decide)

/-- C6: the readability score of any non-empty text lies in the closed
interval from 0 to 100, and evaluating the same text twice gives the
same value. -/
theorem c6_readability (text : String) (h : text ≠ "") :
    0 ≤ calculateReadabilityScore text ∧
    calculateReadabilityScore text ≤ 100 ∧
    (∀ text2, text2 = text →
      calculateReadabilityScore text2 = calculateReadabilityScore text) := by
  refine ⟨?_, ?_, fun t2 ht => by rw [ht]⟩
  · unfold calculateReadabilityScore
    dsimp only
    split
    · norm_num
    · exact le_max_left _ _
  · unfold calculateReadabilityScore
    dsimp only
    split
    · norm_num
    · exact max_le (by norm_num) (le_trans (min_le_left _ _) (by norm_num))

/-- C6, witness: the range theorem discharged at a concrete short text. -/
theorem c6_witness :
    ("Hi." ≠ "") ∧
    (0 ≤ calculateReadabilityScore "Hi." ∧ calculateReadabilityScore "Hi." ≤ 100) :=
  ⟨by decide,
    ⟨(c6_readability "Hi." (by decide)).1, (c6_readability "Hi." (by decide)).2.1⟩⟩

/-- Fixture model a. -/
def mA : ModelConfig := { id := "model-a", name := "Model A", provider := "P" }

/-- Fixture model b. -/
def mB : ModelConfig := { id := "model-b", name := "Model B", provider := "P" }

/-- Fixture model c. -/
def mC : ModelConfig := { id := "model-c", name := "Model C", provider := "P" }

/-- Fixture model d. -/
def mD : ModelConfig := { id := "model-d", name := "Model D", provider := "P" }

/-- An odd pool of three configured models. -/
def pool3 : List ModelConfig := [mA, mB, mC]

/-- An even pool of four configured models. -/
def pool4 : List ModelConfig := [mA, mB, mC, mD]

/-- Closed form of a successful getModelPair call on a pool of at least
two models. -/
theorem getModelPairOk (pool : List ModelConfig) (h2 : 2 ≤ pool.length) (last : Int) :
    getModelPair pool last = Except.ok
      ((pool.getD ((((last + 1) % ((pool.length : Int) / 2)) * 2 %
          (pool.length : Int)).toNat) default,
        pool.getD ((((last + 1) % ((pool.length : Int) / 2)) * 2 + 1) %
          (pool.length : Int)).toNat default),
       (last + 1) % ((pool.length : Int) / 2)) := by
  unfold getModelPair
  rw [if_neg (by omega)]
  rfl

/-- The rotation index used by the k-th selection is k modulo the pair
count. -/
theorem rotationIdxEq (pool : List ModelConfig) (h2 : 2 ≤ pool.length) :
    ∀ k : Nat, (rotationState pool k + 1) % ((pool.length : Int) / 2) =
      (k : Int) % ((pool.length : Int) / 2) := by
  intro k
  induction k with
  | zero => simp [rotationState]
  | succ n ih =>
    have hs : rotationState pool (n + 1) =
        (rotationState pool n + 1) % ((pool.length : Int) / 2) := by
      simp [rotationState, getModelPairOk pool h2]
    rw [hs, ih, Int.emod_add_emod]
    push_cast
    ring_nf

/-- C7, counterexample: over the odd pool of three models the very first
pair repeats at the second selection while the third model has not been
selected at all, refuting full-pool coverage before any pair repeats. -/
theorem c7_counterexample :
    selectionAt pool3 0 = Except.ok (mA, mB) ∧
    selectionAt pool3 1 = Except.ok (mA, mB) ∧
    mC ∈ pool3 ∧
    mC ∉ selectedBefore pool3 2 := by
  refine ⟨rfl, rfl, by decide, by decide⟩

/-- C7, amended: restricted to pools of even size at least 2, the
rotation hands out the consecutive non-overlapping pairs of the pool,
index k selecting slots 2(k mod n/2) and its successor; every pool slot
is handed out within the first n/2 selections (before any pair repeats),
and the selection sequence is periodic with period n/2. Over the even
pool of four, all four models appear exactly once in every two
consecutive selections, the pairs repeating from the third selection. -/
theorem c7_amended (pool : List ModelConfig) (h2 : 2 ≤ pool.length)
    (heven : pool.length % 2 = 0) :
    (∀ k, selectionAt pool k = Except.ok
      (pool.getD (2 * (k % (pool.length / 2))) default,
       pool.getD (2 * (k % (pool.length / 2)) + 1) default)) ∧
    (∀ j, j < pool.length →
      pool.getD j default ∈ selectedBefore pool (pool.length / 2)) ∧
    (∀ k, selectionAt pool (k + pool.length / 2) = selectionAt pool k) ∧
    (selectionAt pool4 0 = Except.ok (mA, mB) ∧
     selectionAt pool4 1 = Except.ok (mC, mD) ∧
     selectionAt pool4 2 = Except.ok (mA, mB) ∧
     selectionAt pool4 3 = Except.ok (mC, mD)) := by
  have htn2 : 2 * (pool.length / 2) = pool.length := by omega
  have htnpos : 0 < pool.length / 2 := by omega
  have hcast : ((pool.length : Int) / 2) = ((pool.length / 2 : Nat) : Int) := by
    rw [Int.ofNat_ediv]
    norm_num
  have hformula : ∀ k, selectionAt pool k = Except.ok
      (pool.getD (2 * (k % (pool.length / 2))) default,
       pool.getD (2 * (k % (pool.length / 2)) + 1) default) := by
    intro k
    have hklt : k % (pool.length / 2) < pool.length / 2 := Nat.mod_lt k htnpos
    have hidx : (rotationState pool k + 1) % ((pool.length : Int) / 2) =
        ((k % (pool.length / 2) : Nat) : Int) := by
      rw [rotationIdxEq pool h2 k, hcast, Int.ofNat_emod]
    unfold selectionAt
    rw [getModelPairOk pool h2, hidx]
    have hb0 : (0 : Int) ≤ ((k % (pool.length / 2) : Nat) : Int) * 2 := by positivity
    have hb1 : ((k % (pool.length / 2) : Nat) : Int) * 2 < (pool.length : Int) := by
      omega
    have hb0b : (0 : Int) ≤ ((k % (pool.length / 2) : Nat) : Int) * 2 + 1 := by positivity
    have hb1b : ((k % (pool.length / 2) : Nat) : Int) * 2 + 1 < (pool.length : Int) := by
      omega
    have e1 : ((((k % (pool.length / 2) : Nat) : Int) * 2) % (pool.length : Int)).toNat =
        2 * (k % (pool.length / 2)) := by
      rw [Int.emod_eq_of_lt hb0 hb1]
      omega
    have e2 : ((((k % (pool.length / 2) : Nat) : Int) * 2 + 1) % (pool.length : Int)).toNat =
        2 * (k % (pool.length / 2)) + 1 := by
      rw [Int.emod_eq_of_lt hb0b hb1b]
      omega
    rw [e1, e2]
    rfl
  refine ⟨hformula, ?_, ?_, rfl, rfl, rfl, rfl⟩
  · intro j hj
    refine List.mem_flatMap.mpr ⟨j / 2, List.mem_range.mpr (by omega), ?_⟩
    rw [hformula (j / 2)]
    have hj2 : j / 2 % (pool.length / 2) = j / 2 := Nat.mod_eq_of_lt (by omega)
    by_cases hpar : j % 2 = 0
    · have hje : 2 * (j / 2) = j := by omega
      simp [hj2, hje]
    · have hjo : 2 * (j / 2) + 1 = j := by omega
      simp [hj2, hjo]
  · intro k
    rw [hformula, hformula, Nat.add_mod_right]

/-- C7, witness for the amended theorem: the pair formula discharged on
the even pool of four at the first selection. -/
theorem c7_witness :
    (2 ≤ pool4.length ∧ pool4.length % 2 = 0) ∧
    selectionAt pool4 0 = Except.ok
      (pool4.getD (2 * (0 % (pool4.length / 2))) default,
       pool4.getD (2 * (0 % (pool4.length / 2)) + 1) default) :=
  ⟨⟨by decide, by decide⟩,
    (c7_amended pool4 (by decide) (by decide)).1 0⟩

/-- C2: for any feed document and item cap, the parser output is exactly
the well-formed item blocks (those with a truthy title and link) in
original document order, truncated to the cap; in particular its length
is the minimum of the well-formed count K and the cap C. -/
theorem c2_parse_min_order (xml : String) (itemCap : Nat) :
    parseRSSFeedWith itemCap xml =
      (((itemEntries (detectFormat xml.toList) xml.toList).filter
          (wellFormedEntry (detectFormat xml.toList))).map
        (buildRSSItem (detectFormat xml.toList))).take itemCap ∧
    (parseRSSFeedWith itemCap xml).length =
      min ((itemEntries (detectFormat xml.toList) xml.toList).filter
          (wellFormedEntry (detectFormat xml.toList))).length itemCap := by
  have hfn : toRSSItem (detectFormat xml.toList) = fun e =>
      if wellFormedEntry (detectFormat xml.toList) e then
        some (buildRSSItem (detectFormat xml.toList) e) else none := rfl
  have hfm : (itemEntries (detectFormat xml.toList) xml.toList).filterMap
      (toRSSItem (detectFormat xml.toList)) =
      ((itemEntries (detectFormat xml.toList) xml.toList).filter
        (wellFormedEntry (detectFormat xml.toList))).map
        (buildRSSItem (detectFormat xml.toList)) := by
    rw [hfn, filterMapGuardEq]
  have hun : parseRSSFeedWith itemCap xml =
      ((itemEntries (detectFormat xml.toList) xml.toList).filterMap
        (toRSSItem (detectFormat xml.toList))).take itemCap := rfl
  constructor
  · rw [hun, hfm]
  · rw [hun, hfm, List.length_take, List.length_map, Nat.min_comm]

end AiNews
